import Mathlib

/-!
Shallow embedding of `src/coolbox/utilities/hic/strawC_src/straw.cpp`
(the strawC reader for `.hic` contact-matrix files) together with proofs
about the embedded functions.

Modelling conventions:
* C `int` / `long` / `short` values are modelled as `Int`; C `float` /
  `double` counts are modelled as `Rat` (the concrete IEEE rounding is
  irrelevant to the properties below); NaN-ness of a decoded `float` is
  carried as an explicit flag on the raw cell value.
* A `.hic` file is modelled at the level the decoder observes it: the
  NUL-terminated magic string as a byte list, the parsed header fields,
  the footer entry lists, and total functions giving the matrix record,
  inflated block payload, or normalization vector stored at a given file
  position (these functions abstract `seekg`+`read`+inflate; all claims
  below are about payloads that inflate successfully).
* Each `cerr` diagnostic of the source is modelled as a `Diag` value
  accumulated alongside the result, standing for the typed errors named
  by the specification.
* `straw` and `getSize` in the source are verbatim duplicates of each
  other up to their final loop; the shared prefix is factored into
  `queryPlan`, and both functions consume it.
-/

/-- Source struct `indexEntry { int size; long position; }`. -/
structure indexEntry where
  size : Int
  position : Int
deriving DecidableEq, Repr

/-- Source struct `contactRecord { int binX; int binY; float counts; }`. -/
structure contactRecord where
  binX : Int
  binY : Int
  counts : Rat
deriving DecidableEq, Repr

/-- Source struct `chromosome { string name; int index; int length; }`. -/
structure chromosome where
  name : String
  index : Int
  length : Int
deriving DecidableEq, Repr

/-- The four-element `int` arrays `origRegionIndices` / `regionIndices`
of `straw` (straw.cpp lines 797-798): fields `r0..r3` are indices 0..3. -/
structure Region4 where
  r0 : Int
  r1 : Int
  r2 : Int
  r3 : Int
deriving DecidableEq, Repr

/-- Exchange the first and second coordinate pair of a region, as happens
to `origRegionIndices` when the two location arguments of `straw` are
given in the opposite order on an intrachromosomal query. -/
def Region4.swapQuad (o : Region4) : Region4 :=
  ⟨o.r2, o.r3, o.r0, o.r1⟩

/-- Componentwise C-style truncated division by the bin size
(straw.cpp lines 805-818: `regionIndices[k] = pos / binsize`). -/
def regionDiv (o : Region4) (binsize : Int) : Region4 :=
  ⟨o.r0.tdiv binsize, o.r1.tdiv binsize, o.r2.tdiv binsize, o.r3.tdiv binsize⟩

/-- One `Diag` value per `cerr` diagnostic in the source; these model the
typed errors of the specification (`UserError(BadUnit)`,
`FormatError(NotHic)`, ...). `badRegion` models the `std::invalid_argument`
thrown by `stoi` on a malformed position string. -/
inductive Diag where
  | badUnit
  | notHic
  | oldVersion
  | chrNotFound (name : String)
  | badRegion
  | noPairMap
  | missingNorm
  | zoomNotFound
deriving DecidableEq, Repr

/-- Raw count value of one cell in a version ≥ 7 block body. The
constructor records whether the block's `useShort` flag made the source
read an `int16` (`shortC`) or a `float32` (`floatC`, with its NaN flag),
straw.cpp lines 589-595 and 620-633. -/
inductive RawCount where
  | shortC (c : Int)
  | floatC (val : Rat) (isNan : Bool)
deriving DecidableEq, Repr

/-- Body of a version ≥ 7 block after the `binXOffset, binYOffset,
useShort, type` prefix: type-1 list-of-rows (each row is `(y, cells)`
with cells `(x, count)`), type-2 dense rectangle (`w` and the `nPts`
cells in stream order), or an unknown type byte (the source decodes
nothing for it). -/
inductive ModernBody where
  | type1 (rows : List (Int × List (Int × RawCount)))
  | type2 (w : Int) (cells : List RawCount)
  | other (t : Int)
deriving DecidableEq, Repr

/-- Decoded shape of one inflated block payload after the leading
`nRecords` field: version < 7 triples, or the version ≥ 7 offset/flag
prefix plus a body. -/
inductive BlockData where
  | legacy (records : List (Int × Int × Rat))
  | modern (binXOffset binYOffset : Int) (useShort : Int) (body : ModernBody)
deriving DecidableEq, Repr

/-- An inflated block payload: the leading `nRecords : int32` and the
data that follows it (straw.cpp lines 547-548). -/
structure BlockPayload where
  nRecords : Nat
  data : BlockData
deriving DecidableEq, Repr

/-- One footer master-index entry `(key, filePos, sizeInBytes)`
(straw.cpp lines 209-220). -/
structure FooterEntry where
  key : String
  position : Int
  size : Int
deriving DecidableEq, Repr

/-- One normalization-vector index entry
`(normtype, chrIdx, unit, resolution, filePosition, sizeInBytes)`
(straw.cpp lines 281-304). -/
structure NormEntryRec where
  normtype : String
  chrIdx : Int
  unit : String
  resolution : Int
  position : Int
  size : Int
deriving DecidableEq, Repr

/-- The footer as the decoder observes it: the master-index entry list
and the normalization-vector index list (the expected-value sections are
read and discarded by the source, so they are not modelled). -/
structure HicFooter where
  entries : List FooterEntry
  normEntries : List NormEntryRec
deriving DecidableEq, Repr

/-- One zoom record of a matrix (straw.cpp lines 312-354): the unit,
bin size, block bin count, block column count and the block index
`blockNumber → indexEntry` in file order. -/
structure ZoomLevel where
  unit : String
  binSize : Int
  blockBinCount : Int
  blockColumnCount : Int
  blocks : List (Int × indexEntry)
deriving DecidableEq, Repr

/-- A `.hic` file as the decoder observes it. `magic` is the byte list
of the NUL-terminated string at offset 0 (excluding the NUL).
`matrixAt`, `payloadAt` and `normVectorAt` give the zoom-level list of
the matrix record, the inflated block payload, and the normalization
vector stored at a file position; they abstract seek+read+inflate. -/
structure HicFile where
  magic : List Nat
  version : Int
  master : Int
  chromosomes : List (String × Int)
  footer : HicFooter
  matrixAt : Int → List ZoomLevel
  payloadAt : Int → BlockPayload
  normVectorAt : Int → List Rat

/-- Magic check of `readMagicString` (straw.cpp lines 145-149): the first
three characters of the NUL-terminated string must be `H`, `I`, `C`
(byte values 72, 73, 67); a read past the end of the string is modelled
as the byte 0. -/
def readMagicString (magic : List Nat) : Bool :=
  magic.getD 0 0 == 72 && magic.getD 1 0 == 73 && magic.getD 2 0 == 67

/-- Insertion into a string-keyed association list with `std::map`
overwrite semantics (`chromosomeMap[name] = chr`). -/
def insertOverwrite (m : List (String × chromosome)) (k : String) (v : chromosome) :
    List (String × chromosome) :=
  match m with
  | [] => [(k, v)]
  | (k2, v2) :: rest =>
    if k2 == k then (k, v) :: rest else (k2, v2) :: insertOverwrite rest k v

/-- Chromosome table built by `readHeader` (straw.cpp lines 181-191):
the i-th declared chromosome gets index `i`. -/
def buildChromosomeMap (l : List (String × Int)) : List (String × chromosome) :=
  l.enum.foldl (fun m p => insertOverwrite m p.2.1 ⟨p.2.1, (p.1 : Int), p.2.2⟩) []

/-- Lookup in the chromosome table, `chromosomeMap.count(...)` plus
`chromosomeMap[...]` of the source. -/
def mapLookup (m : List (String × chromosome)) (k : String) : Option chromosome :=
  (m.find? (fun p => p.1 == k)).map (fun p => p.2)

/-- Result of `readHeader` (straw.cpp lines 152-193): the master pointer
(`-1` on failure), the chromosome table (empty on failure) and the
diagnostics emitted. -/
structure HeaderResult where
  master : Int
  chromosomeMap : List (String × chromosome)
  diags : List Diag
deriving Repr

/-- Embedding of `readHeader`: bad magic or `version < 6` yield
`master = -1` and an empty chromosome table (the source then fails at
the chromosome lookup in `straw`). -/
def readHeader (f : HicFile) : HeaderResult :=
  if !readMagicString f.magic then ⟨-1, [], [Diag.notHic]⟩
  else if f.version < 6 then ⟨-1, [], [Diag.oldVersion]⟩
  else ⟨f.master, buildChromosomeMap f.chromosomes, []⟩

/-- Footer key `"{c1}_{c2}"` built by `stringstream` at
straw.cpp lines 202-204. -/
def footerKey (c1 c2 : Int) : String :=
  toString c1 ++ "_" ++ toString c2

/-- The master-index scan of `readFooter` (straw.cpp lines 209-220): the
loop visits every entry and overwrites `myFilePos` on each key match, so
the position of the last matching entry survives; `none` means no match
(`found == false`). -/
def scanEntries (entries : List FooterEntry) (key : String) : Option Int :=
  entries.foldl (fun acc e => if e.key == key then some e.position else acc) none

/-- The normalization-vector index scan of `readFooter`
(straw.cpp lines 281-304): one pass updating both out-entries, each
overwritten on every match of its chromosome. -/
def scanNormEntries (l : List NormEntryRec) (c1 c2 : Int) (norm unit : String)
    (res : Int) : Option indexEntry × Option indexEntry :=
  l.foldl (fun acc e =>
    (if e.chrIdx == c1 && e.normtype == norm && e.unit == unit && e.resolution == res
       then some ⟨e.size, e.position⟩ else acc.1,
     if e.chrIdx == c2 && e.normtype == norm && e.unit == unit && e.resolution == res
       then some ⟨e.size, e.position⟩ else acc.2)) (none, none)

/-- Result of `readFooter`: `pairPos = none` models `return false`
(chromosome-pair key absent); the two optional normalization entries
stay `none` when absent, in which case the source leaves the
corresponding `indexEntry` out-parameters uninitialized and only warns. -/
structure FooterResult where
  pairPos : Option Int
  c1NormEntry : Option indexEntry
  c2NormEntry : Option indexEntry
  warnings : List Diag
deriving Repr

/-- Embedding of `readFooter` (straw.cpp lines 199-309). The pair scan
runs first; on `norm == "NONE"` the function returns before touching the
normalization index; a missing normalization entry is non-fatal (warning
only, straw.cpp lines 305-308). -/
def readFooter (footer : HicFooter) (c1 c2 : Int) (norm unit : String)
    (resolution : Int) : FooterResult :=
  match scanEntries footer.entries (footerKey c1 c2) with
  | none => ⟨none, none, none, []⟩
  | some pos =>
    if norm == "NONE" then ⟨some pos, none, none, []⟩
    else
      let es := scanNormEntries footer.normEntries c1 c2 norm unit resolution
      ⟨some pos, es.1, es.2,
       if es.1.isNone || es.2.isNone then [Diag.missingNorm] else []⟩

/-- The zoom-level search of `readMatrix` / `readMatrixZoomData`
(straw.cpp lines 461-480): iterate the zoom records in order until the
first one matching `(unit, binsize)`; `none` models the
"Error finding block data" path. -/
def readMatrix (zooms : List ZoomLevel) (unit : String) (binsize : Int) :
    Option ZoomLevel :=
  zooms.find? (fun z => z.unit == unit && z.binSize == binsize)

/-- Inclusive integer range `[lo .. hi]` as a list, the iteration space
of a C `for (int r = lo; r <= hi; r++)` loop. -/
def intRangeList (lo hi : Int) : List Int :=
  List.map (fun k : Nat => lo + (k : Int)) (List.range (hi + 1 - lo).toNat)

/-- Embedding of `getBlockNumbersForRegionFromBinPosition`
(straw.cpp lines 483-509). The two nested loops insert
`r * blockColumnCount + c` into a `std::set`; the set is modelled as the
insertion-order list with duplicates removed (`dedup`); divisions are
C truncated divisions. -/
def getBlockNumbersForRegionFromBinPosition (regionIndices : Region4)
    (blockBinCount blockColumnCount : Int) (intra : Bool) : List Int :=
  let col1 := regionIndices.r0.tdiv blockBinCount
  let col2 := (regionIndices.r1 + 1).tdiv blockBinCount
  let row1 := regionIndices.r2.tdiv blockBinCount
  let row2 := (regionIndices.r3 + 1).tdiv blockBinCount
  let upper := (intRangeList row1 row2).flatMap
    (fun r => (intRangeList col1 col2).map (fun c => r * blockColumnCount + c))
  let lower := if intra then
      (intRangeList col1 col2).flatMap
        (fun r => (intRangeList row1 row2).map (fun c => r * blockColumnCount + c))
    else []
  (upper ++ lower).dedup

/-- Reading one cell count in a type-2 body (straw.cpp lines 619-642):
an `int16` equal to `-32768` and a NaN `float32` are skipped (`none`);
every other value is the emitted count. -/
def readCountCell : RawCount → Option Rat
  | RawCount.shortC c => if c = -32768 then none else some (c : Rat)
  | RawCount.floatC v isNan => if isNan then none else some v

/-- Count value as read in a type-1 body (straw.cpp lines 588-596):
an `int16` is emitted as-is cast to float and a `float32` is emitted
unconditionally; type 1 performs no sentinel or NaN skipping. -/
def rawVal : RawCount → Rat
  | RawCount.shortC c => (c : Rat)
  | RawCount.floatC v _ => v

/-- The type-2 decode loop (straw.cpp lines 612-643), written with the
explicit iteration counter `i` of the source: `row = i / w`
(C truncated division), `col = i - row * w`, and only non-skipped cells
append a record. -/
def type2Aux (bxOff byOff w : Int) : Nat → List RawCount → List contactRecord
  | _, [] => []
  | i, cell :: rest =>
    match readCountCell cell with
    | none => type2Aux bxOff byOff w (i + 1) rest
    | some q =>
      ⟨bxOff + ((i : Int) - ((i : Int).tdiv w) * w), byOff + (i : Int).tdiv w, q⟩ ::
        type2Aux bxOff byOff w (i + 1) rest

/-- Records written by a type-2 body, in write order. -/
def type2Records (bxOff byOff w : Int) (cells : List RawCount) : List contactRecord :=
  type2Aux bxOff byOff w 0 cells

/-- Records written by a type-1 body (straw.cpp lines 574-604), in write
order: `binY = y + binYOffset`, `binX = binXOffset + x`. -/
def type1Records (bxOff byOff : Int) (rows : List (Int × List (Int × RawCount))) :
    List contactRecord :=
  rows.flatMap (fun row =>
    row.2.map (fun xc => ⟨bxOff + xc.1, row.1 + byOff, rawVal xc.2⟩))

/-- The sequence of records the decode loops of `readBlock` write into
`v[0], v[1], ...` (straw.cpp lines 551-645), per version and body type;
an unknown version ≥ 7 type byte writes nothing. -/
def decodedRecords (version : Int) (data : BlockData) : List contactRecord :=
  if version < 7 then
    match data with
    | BlockData.legacy rs => rs.map (fun r => ⟨r.1, r.2.1, r.2.2⟩)
    | _ => []
  else
    match data with
    | BlockData.modern bxOff byOff _us body =>
      match body with
      | ModernBody.type1 rows => type1Records bxOff byOff rows
      | ModernBody.type2 w cells => type2Records bxOff byOff w cells
      | ModernBody.other _ => []
    | BlockData.legacy _ => []

/-- The zero-initialized `contactRecord` a slot of `vector v(nRecords)`
holds before anything is written into it. -/
def zeroRecord : contactRecord := ⟨0, 0, 0⟩

/-- The content of `vector<contactRecord> v(n)` after the decode loop
wrote `ws` sequentially into `v[0], v[1], ...`: the written prefix
followed by still-zero-initialized slots. (Writes past index `n - 1`
would be undefined behaviour in the source and are dropped here.) -/
def fillVector (n : Nat) (ws : List contactRecord) : List contactRecord :=
  ws.take n ++ List.replicate (n - ws.length) zeroRecord

/-- Embedding of `readBlock` (straw.cpp lines 513-649): an empty index
entry yields no records without I/O; otherwise the result is the
`nRecords`-sized vector with the decoded records written into it. -/
def readBlock (version : Int) (idx : indexEntry) (payload : BlockPayload) :
    List contactRecord :=
  if idx.size = 0 then []
  else fillVector payload.nRecords (decodedRecords version payload.data)

/-- Embedding of `readSize` (straw.cpp lines 651-689): an empty index
entry yields 0, otherwise the leading `nRecords` of the inflated
payload. -/
def readSize (idx : indexEntry) (payload : BlockPayload) : Nat :=
  if idx.size = 0 then 0 else payload.nRecords

/-- Splitting a character list at `:` delimiters, the behaviour of the
repeated `getline(ss, tok, ':')` calls of the source. -/
def splitColon : List Char → List Char → List (List Char)
  | [], acc => [acc.reverse]
  | c :: rest, acc =>
    if c = ':' then acc.reverse :: splitColon rest [] else splitColon rest (c :: acc)

/-- Digit accumulator for the model of `stoi`. -/
def parseNatDigits : List Char → Nat → Option Nat
  | [], acc => some acc
  | c :: rest, acc =>
    if 48 ≤ c.toNat ∧ c.toNat ≤ 57 then
      parseNatDigits rest (acc * 10 + (c.toNat - 48))
    else none

/-- Model of `stoi` on a position token: an optional sign followed by
digits. (The source's `stoi` also accepts leading whitespace and
trailing junk and throws `std::invalid_argument` on failure; the failure
case is modelled as `none` and aborts the query, which likewise returns
no records.) -/
def stoiModel (s : List Char) : Option Int :=
  match s with
  | [] => none
  | c :: rest =>
    if c = '-' then (parseNatDigits rest 0).map (fun n => -(n : Int))
    else (parseNatDigits s 0).map (fun n => (n : Int))

/-- Parse one location argument `name[:x:y]` (straw.cpp lines 759-792):
the name is the text before the first `:`; the two position tokens are
used only when both are present, otherwise the chromosome-length default
applies; tokens past the third are ignored. -/
def parseChrLoc (loc : String) : String × Option (List Char × List Char) :=
  match splitColon loc.toList [] with
  | [] => ("", none)
  | [nm] => (String.mk nm, none)
  | [nm, _] => (String.mk nm, none)
  | nm :: xs :: ys :: _ => (String.mk nm, some (xs, ys))

/-- Resolve the position pair of one location argument: absent range
means `[0, chromosome.length]`; a malformed number aborts (source:
`stoi` throws). -/
def resolveRange (chromLength : Int) (raw : Option (List Char × List Char)) :
    Option (Int × Int) :=
  match raw with
  | none => some (0, chromLength)
  | some (xs, ys) =>
    match stoiModel xs, stoiModel ys with
    | some a, some b => some (a, b)
    | _, _ => none

/-- Everything `straw` and `getSize` compute before their final
per-block loops (the two source functions are verbatim duplicates up to
that point): the file version, whether the query is intrachromosomal,
`origRegionIndices`, the two optional normalization index entries, and
the matching zoom level. -/
structure QueryPlan where
  version : Int
  intra : Bool
  orig : Region4
  c1NormEntry : Option indexEntry
  c2NormEntry : Option indexEntry
  zoom : ZoomLevel

/-- Shared prefix of `straw` (straw.cpp lines 711-890) and `getSize`
(lines 929-1097): unit check, header, location parsing, canonical
chromosome ordering and region reversal, footer, zoom search. `none`
with the accumulated diagnostics models every early `return` with an
empty result. The zoom-not-found case also yields no records in the
source (the block map is empty, so every selected block decodes to
nothing), modelled as an early abort. -/
def queryPlan (norm : String) (f : HicFile) (chr1loc chr2loc unit : String)
    (binsize : Int) : List Diag × Option QueryPlan :=
  if !(unit == "BP" || unit == "FRAG") then ([Diag.badUnit], none)
  else
    let hr := readHeader f
    let p1 := parseChrLoc chr1loc
    match mapLookup hr.chromosomeMap p1.1 with
    | none => (hr.diags ++ [Diag.chrNotFound p1.1], none)
    | some chrom1 =>
      match resolveRange chrom1.length p1.2 with
      | none => (hr.diags ++ [Diag.badRegion], none)
      | some pos1 =>
        let p2 := parseChrLoc chr2loc
        match mapLookup hr.chromosomeMap p2.1 with
        | none => (hr.diags ++ [Diag.chrNotFound p2.1], none)
        | some chrom2 =>
          match resolveRange chrom2.length p2.2 with
          | none => (hr.diags ++ [Diag.badRegion], none)
          | some pos2 =>
            let c1 := min chrom1.index chrom2.index
            let c2 := max chrom1.index chrom2.index
            let orig : Region4 :=
              if chrom2.index < chrom1.index then ⟨pos2.1, pos2.2, pos1.1, pos1.2⟩
              else ⟨pos1.1, pos1.2, pos2.1, pos2.2⟩
            let fr := readFooter f.footer c1 c2 norm unit binsize
            match fr.pairPos with
            | none => (hr.diags ++ [Diag.noPairMap], none)
            | some myFilePos =>
              match readMatrix (f.matrixAt myFilePos) unit binsize with
              | none => (hr.diags ++ fr.warnings ++ [Diag.zoomNotFound], none)
              | some z =>
                (hr.diags ++ fr.warnings,
                 some ⟨f.version, c1 == c2, orig, fr.c1NormEntry, fr.c2NormEntry, z⟩)

/-- Block-map lookup with `std::map::operator[]` semantics: later
duplicate keys overwrite earlier ones, and a missing block number yields
the value-initialized entry `{0, 0}` (which `readBlock` treats as
empty). -/
def blockMapLookup (l : List (Int × indexEntry)) (b : Int) : indexEntry :=
  (l.foldl (fun acc p => if p.1 == b then some p.2 else acc) none).getD ⟨0, 0⟩

/-- Normalization-vector indexing `cNorm[bin]` of straw.cpp line 905.
An out-of-range or negative index is undefined behaviour in the source
(`std::vector::operator[]`); the model reads 0 there. -/
def normAt (v : List Rat) (i : Int) : Rat :=
  v.getD i.toNat 0

/-- Load one normalization vector (straw.cpp lines 848-876): nothing is
loaded for `norm == "NONE"`; a present index entry yields the stored
vector; an absent entry means the source reads through an uninitialized
`indexEntry` (undefined behaviour), modelled by the explicit `uninit`
parameter standing for whatever that read produces. -/
def loadNorm (f : HicFile) (norm : String) (e : Option indexEntry)
    (uninit : List Rat) : List Rat :=
  if norm == "NONE" then []
  else match e with
  | some en => f.normVectorAt en.position
  | none => uninit

/-- Per-record rectangle test of the emit condition
(straw.cpp lines 908-911, first resp. mirrored disjunct):
`r0 ≤ x ≤ r1` and `r2 ≤ y ≤ r3`. -/
def inRect (o : Region4) (x y : Int) : Bool :=
  decide (o.r0 ≤ x ∧ x ≤ o.r1 ∧ o.r2 ≤ y ∧ y ≤ o.r3)

/-- The full emit condition of straw.cpp lines 908-911: inside the
requested rectangle, or (intrachromosomal only) inside its diagonal
mirror. -/
def regionCond (o : Region4) (intra : Bool) (x y : Int) : Bool :=
  inRect o x y || (intra && inRect o y x)

/-- The body of the record loop of `straw` (straw.cpp lines 898-919):
scale bins to genomic coordinates, divide by the two normalization
values unless `norm == "NONE"`, and emit the record exactly when the
region condition holds. -/
def processRecord (norm : String) (binsize : Int) (o : Region4) (intra : Bool)
    (c1Norm c2Norm : List Rat) (rec : contactRecord) : Option contactRecord :=
  let x := rec.binX * binsize
  let y := rec.binY * binsize
  let c := if norm == "NONE" then rec.counts
           else rec.counts / (normAt c1Norm rec.binX * normAt c2Norm rec.binY)
  if regionCond o intra x y then some ⟨x, y, c⟩ else none

/-- Embedding of `straw` (straw.cpp lines 711-926). The result pairs the
emitted records with the diagnostics. `uninit1` / `uninit2` stand for
the contents of the normalization vectors the source reads through
uninitialized index entries when `norm != "NONE"` and the footer lacked
an entry for the corresponding chromosome (undefined behaviour in the
source); they are unused in every other situation. -/
def straw (norm : String) (f : HicFile) (chr1loc chr2loc unit : String)
    (binsize : Int) (uninit1 uninit2 : List Rat) :
    List contactRecord × List Diag :=
  match queryPlan norm f chr1loc chr2loc unit binsize with
  | (ds, none) => ([], ds)
  | (ds, some p) =>
    let c1Norm := loadNorm f norm p.c1NormEntry uninit1
    let c2Norm := loadNorm f norm p.c2NormEntry uninit2
    let region := regionDiv p.orig binsize
    let blockNumbers := getBlockNumbersForRegionFromBinPosition region
      p.zoom.blockBinCount p.zoom.blockColumnCount p.intra
    (blockNumbers.flatMap (fun b =>
      let idx := blockMapLookup p.zoom.blocks b
      (readBlock p.version idx (f.payloadAt idx.position)).filterMap
        (processRecord norm binsize p.orig p.intra c1Norm c2Norm)), ds)

/-- Embedding of `getSize` (straw.cpp lines 929-1107): identical
traversal, but each selected block contributes only the leading
`nRecords` of its inflated payload, via `readSize`. -/
def getSize (norm : String) (f : HicFile) (chr1loc chr2loc unit : String)
    (binsize : Int) : Nat :=
  match queryPlan norm f chr1loc chr2loc unit binsize with
  | (_, none) => 0
  | (_, some p) =>
    let region := regionDiv p.orig binsize
    let blockNumbers := getBlockNumbersForRegionFromBinPosition region
      p.zoom.blockBinCount p.zoom.blockColumnCount p.intra
    (blockNumbers.map (fun b =>
      let idx := blockMapLookup p.zoom.blocks b
      readSize idx (f.payloadAt idx.position))).sum

/-- Transposition of a record list (exchange of `binX` and `binY`), used
to state the swap claim. -/
def transposeRecords (l : List contactRecord) : List contactRecord :=
  l.map (fun r => ⟨r.binY, r.binX, r.counts⟩)

/-- A zoom level shared by the concrete example files: unit `BP`,
bin size 1, block bin count 100, block column count 1, and one block
(number 0) stored at position 20 with compressed size 1. -/
def exampleZoom : ZoomLevel :=
  ⟨"BP", 1, 100, 1, [(0, ⟨1, 20⟩)]⟩

/-- Concrete version-6 file with one chromosome `a` of length 10 and a
single stored record at bin `(5, 5)` with count 3. A query restricted to
`a:0:3` selects the block holding that record but filters the record
out, so `straw` returns fewer records than `getSize` counts. -/
def fileC1 : HicFile where
  magic := [72, 73, 67]
  version := 6
  master := 100
  chromosomes := [("a", 10)]
  footer := ⟨[⟨"0_0", 50, 1⟩], []⟩
  matrixAt := fun _ => [exampleZoom]
  payloadAt := fun _ => ⟨1, BlockData.legacy [(5, 5, 3)]⟩
  normVectorAt := fun _ => []

/-- Concrete version-6 file with chromosomes `a`, `b` (both length 4),
one interchromosomal record at bin `(0, 0)` with count 4, and a `VC`
normalization vector stored only for chromosome 0: the footer's
normalization index has no entry for chromosome 1. -/
def file7 : HicFile where
  magic := [72, 73, 67]
  version := 6
  master := 100
  chromosomes := [("a", 4), ("b", 4)]
  footer := ⟨[⟨"0_1", 50, 1⟩], [⟨"VC", 0, "BP", 1, 60, 8⟩]⟩
  matrixAt := fun _ => [exampleZoom]
  payloadAt := fun _ => ⟨1, BlockData.legacy [(0, 0, 4)]⟩
  normVectorAt := fun _ => [1]

/-- Concrete version-7 file with one chromosome `a` of length 4 whose
single block is a type-2 body with `useShort == 0`, `w = 1` and exactly
one cell, the `int16` sentinel `-32768`; the block's leading `nRecords`
field is 1. -/
def file8 : HicFile where
  magic := [72, 73, 67]
  version := 7
  master := 100
  chromosomes := [("a", 4)]
  footer := ⟨[⟨"0_0", 50, 1⟩], []⟩
  matrixAt := fun _ => [exampleZoom]
  payloadAt := fun _ => ⟨1, BlockData.modern 0 0 0 (ModernBody.type2 1 [RawCount.shortC (-32768)])⟩
  normVectorAt := fun _ => []

/-- Concrete version-6 file with chromosomes `a`, `b` (both length 4)
and a single off-diagonal interchromosomal record at bin `(1, 2)` with
count 5. -/
def file9 : HicFile where
  magic := [72, 73, 67]
  version := 6
  master := 100
  chromosomes := [("a", 4), ("b", 4)]
  footer := ⟨[⟨"0_1", 50, 1⟩], []⟩
  matrixAt := fun _ => [exampleZoom]
  payloadAt := fun _ => ⟨1, BlockData.legacy [(1, 2, 5)]⟩
  normVectorAt := fun _ => []

/-- The file `fileC1` with its magic string corrupted to `XIC`: its
first three bytes are not `H`, `I`, `C`. -/
def fileBadMagic : HicFile :=
  { fileC1 with magic := [88, 73, 67] }

/-- The file `fileC1` with an empty footer: no chromosome-pair entry at
all. -/
def fileNoPair : HicFile :=
  { fileC1 with footer := ⟨[], []⟩ }

/-- The footer of the duplicate-key counterexample: two master-index
entries with the same key `1_2` at positions 10 and 20. -/
def dupFooter : HicFooter :=
  ⟨[⟨"1_2", 10, 5⟩, ⟨"1_2", 20, 5⟩], []⟩

/-! ### Helper lemmas -/

theorem mem_intRangeList {lo hi b : Int} :
    b ∈ intRangeList lo hi ↔ lo ≤ b ∧ b ≤ hi := by
  unfold intRangeList
  rw [List.mem_map]
  constructor
  · rintro ⟨k, hk, hEq⟩
    rw [List.mem_range] at hk
    omega
  · intro h
    exact ⟨(b - lo).toNat, List.mem_range.mpr (by omega), by omega⟩

theorem mem_blockSelector {ri : Region4} {bbc bcc : Int} {intra : Bool} {b : Int} :
    b ∈ getBlockNumbersForRegionFromBinPosition ri bbc bcc intra ↔
      ((∃ r c, ri.r2.tdiv bbc ≤ r ∧ r ≤ (ri.r3 + 1).tdiv bbc ∧
          ri.r0.tdiv bbc ≤ c ∧ c ≤ (ri.r1 + 1).tdiv bbc ∧ r * bcc + c = b) ∨
       (intra = true ∧ ∃ r c, ri.r0.tdiv bbc ≤ r ∧ r ≤ (ri.r1 + 1).tdiv bbc ∧
          ri.r2.tdiv bbc ≤ c ∧ c ≤ (ri.r3 + 1).tdiv bbc ∧ r * bcc + c = b)) := by
  cases intra <;>
    simp [getBlockNumbersForRegionFromBinPosition, List.mem_flatMap,
      List.mem_map, mem_intRangeList, and_assoc]

theorem blockSelector_nodup (ri : Region4) (bbc bcc : Int) (intra : Bool) :
    (getBlockNumbersForRegionFromBinPosition ri bbc bcc intra).Nodup := by
  simp only [getBlockNumbersForRegionFromBinPosition]
  exact List.nodup_dedup _

theorem fillVector_length (n : Nat) (ws : List contactRecord) :
    (fillVector n ws).length = n := by
  simp [fillVector]
  omega

theorem readBlock_length (version : Int) (idx : indexEntry) (payload : BlockPayload) :
    (readBlock version idx payload).length = readSize idx payload := by
  unfold readBlock readSize
  by_cases h : idx.size = 0 <;> simp [h, fillVector_length]

theorem length_flatMap_le_sum {α : Type} (l : List α) (g : α → List contactRecord)
    (h : α → Nat) (hb : ∀ b ∈ l, (g b).length ≤ h b) :
    (l.flatMap g).length ≤ (l.map h).sum := by
  induction l with
  | nil => simp
  | cons a t ih =>
    simp only [List.flatMap_cons, List.map_cons, List.length_append, List.sum_cons]
    have h1 := hb a (List.mem_cons_self a t)
    have h2 := ih (fun b hbm => hb b (List.mem_cons_of_mem a hbm))
    omega

theorem scanEntries_aux (l : List FooterEntry) (key : String) (acc : Option Int) :
    l.foldl (fun a e => if e.key == key then some e.position else a) acc =
      (match (l.filter (fun e => e.key == key)).getLast? with
       | some e => some e.position
       | none => acc) := by
  induction l generalizing acc with
  | nil => rfl
  | cons e t ih =>
    rw [List.foldl_cons, List.filter_cons]
    by_cases h : (e.key == key) = true
    · rw [if_pos h, if_pos h, ih, List.getLast?_cons]
      cases hl : (t.filter fun e2 => e2.key == key).getLast? <;> simp [hl]
    · rw [if_neg h, if_neg h]
      exact ih acc

theorem scanEntries_eq (l : List FooterEntry) (key : String) :
    scanEntries l key =
      ((l.filter (fun e => e.key == key)).getLast?).map (fun e => e.position) := by
  rw [scanEntries, scanEntries_aux]
  cases hl : (l.filter fun e => e.key == key).getLast? <;> simp [hl]

theorem scanEntries_some {l : List FooterEntry} {k : String} {pos : Int}
    (h : scanEntries l k = some pos) : ∃ e ∈ l, e.key = k := by
  rw [scanEntries_eq] at h
  cases hl : (l.filter fun e => e.key == k).getLast? with
  | none => rw [hl] at h; simp at h
  | some e =>
    have hmem : e ∈ l.filter fun e2 => e2.key == k := by
      obtain ⟨hne, heq⟩ := List.mem_getLast?_eq_getLast (by rw [hl]; rfl)
      exact heq ▸ List.getLast_mem hne
    rcases List.mem_filter.mp hmem with ⟨hmm, hk⟩
    exact ⟨e, hmm, by simpa using hk⟩

theorem readFooter_pairPos_none {footer : HicFooter} {c1 c2 : Int}
    {norm unit : String} {res : Int}
    (hkeys : ∀ e ∈ footer.entries, e.key ≠ footerKey c1 c2) :
    (readFooter footer c1 c2 norm unit res).pairPos = none := by
  rw [readFooter]
  cases hs : scanEntries footer.entries (footerKey c1 c2) with
  | none => rfl
  | some pos =>
    exfalso
    obtain ⟨e, he, hek⟩ := scanEntries_some hs
    exact hkeys e he hek

/-! ### C1 -/

/-- C1 (amended): for every file and every fixed set of query
parameters, the number of contact records returned by `straw` is at most
the integer returned by `getSize`; the two can differ because `getSize`
sums the leading `nRecords` field of every selected block while `straw`
additionally applies the region filter to each decoded record. -/
theorem straw_length_le_getSize (norm : String) (f : HicFile)
    (chr1loc chr2loc unit : String) (binsize : Int) (u1 u2 : List Rat) :
    (straw norm f chr1loc chr2loc unit binsize u1 u2).1.length ≤
      getSize norm f chr1loc chr2loc unit binsize := by
  unfold straw getSize
  rcases hq : queryPlan norm f chr1loc chr2loc unit binsize with ⟨ds, _ | p⟩
  · simp [hq]
  · simp only [hq]
    apply length_flatMap_le_sum
    intro b _
    refine le_of_le_of_eq (List.length_filterMap_le _ _) ?_
    exact readBlock_length _ _ _

/-- C1 counterexample: on `fileC1` with region `a:0:3`, the selected
block holds one record (so `getSize` returns 1) whose coordinates lie
outside the requested region (so `straw` returns no records): the
claimed equality `len(straw(...)) == getSize(...)` is false. -/
theorem straw_length_ne_getSize_cex :
    (straw "NONE" fileC1 "a:0:3" "a:0:3" "BP" 1 [] []).1.length ≠
      getSize "NONE" fileC1 "a:0:3" "a:0:3" "BP" 1 := by
  decide

/-! ### C10 -/

/-- C10: for every block with nonzero index size, `readBlock` returns a
vector whose length equals the leading `nRecords` field of the inflated
payload regardless of how many records the decode loops wrote, and every
slot at an index at or past the number of written records (such as the
slots left by skipped sentinel or NaN cells of a type-2 body) still
holds the zero-initialized record `(binX = 0, binY = 0, counts = 0)`. -/
theorem readBlock_padded (version : Int) (idx : indexEntry) (payload : BlockPayload)
    (j : Nat) (hsz : idx.size ≠ 0)
    (hj1 : (decodedRecords version payload.data).length ≤ j)
    (hj2 : j < payload.nRecords) :
    (readBlock version idx payload).length = payload.nRecords ∧
    (readBlock version idx payload)[j]? = some zeroRecord := by
  constructor
  · rw [readBlock, if_neg hsz]
    exact fillVector_length _ _
  · rw [readBlock, if_neg hsz, fillVector]
    rw [List.getElem?_append_right (by rw [List.length_take]; omega)]
    rw [List.getElem?_replicate]
    rw [if_pos (by rw [List.length_take]; omega)]

/-- Witness for `readBlock_padded` at the type-2 block of `file8`: the
single cell is the skipped sentinel, so slot 0 of the returned
1-element vector is the zero record. -/
theorem readBlock_padded_witness :
    ((⟨1, 20⟩ : indexEntry).size ≠ 0 ∧
     (decodedRecords 7 (BlockData.modern 0 0 0 (ModernBody.type2 1 [RawCount.shortC (-32768)]))).length ≤ 0 ∧
     (0 : Nat) < (1 : Nat)) ∧
    ((readBlock 7 ⟨1, 20⟩ ⟨1, BlockData.modern 0 0 0 (ModernBody.type2 1 [RawCount.shortC (-32768)])⟩).length = 1 ∧
     (readBlock 7 ⟨1, 20⟩ ⟨1, BlockData.modern 0 0 0 (ModernBody.type2 1 [RawCount.shortC (-32768)])⟩)[0]? = some zeroRecord) :=
  ⟨⟨by decide, by decide, by decide⟩,
   readBlock_padded 7 ⟨1, 20⟩
     ⟨1, BlockData.modern 0 0 0 (ModernBody.type2 1 [RawCount.shortC (-32768)])⟩ 0
     (by decide) (by decide) (by decide)⟩

/-! ### C2 -/

/-- C2: for every region in bin coordinates and positive
`blockBinCount` / `blockColumnCount`, the block selector returns,
without duplicates, exactly the numbers `r * blockColumnCount + c` for
`r` in `[row1/blockBinCount .. (row2+1)/blockBinCount]` and `c` in
`[col1/blockBinCount .. (col2+1)/blockBinCount]` (the divisions being C
truncated divisions; here `(col1, col2, row1, row2)` are fields
`r0..r3`), united, when `intra` is true, with the same formula applied
to the swapped rectangle. -/
theorem getBlockNumbers_spec (regionIndices : Region4)
    (blockBinCount blockColumnCount : Int) (intra : Bool) (b : Int)
    (_hb : 0 < blockBinCount) (_hc : 0 < blockColumnCount) :
    (getBlockNumbersForRegionFromBinPosition regionIndices blockBinCount
      blockColumnCount intra).Nodup ∧
    (b ∈ getBlockNumbersForRegionFromBinPosition regionIndices blockBinCount
        blockColumnCount intra ↔
      ((∃ r c, regionIndices.r2.tdiv blockBinCount ≤ r ∧
          r ≤ (regionIndices.r3 + 1).tdiv blockBinCount ∧
          regionIndices.r0.tdiv blockBinCount ≤ c ∧
          c ≤ (regionIndices.r1 + 1).tdiv blockBinCount ∧
          r * blockColumnCount + c = b) ∨
       (intra = true ∧ ∃ r c, regionIndices.r0.tdiv blockBinCount ≤ r ∧
          r ≤ (regionIndices.r1 + 1).tdiv blockBinCount ∧
          regionIndices.r2.tdiv blockBinCount ≤ c ∧
          c ≤ (regionIndices.r3 + 1).tdiv blockBinCount ∧
          r * blockColumnCount + c = b))) :=
  ⟨blockSelector_nodup _ _ _ _, mem_blockSelector⟩

/-- Witness for `getBlockNumbers_spec` at a concrete region and block
geometry. -/
theorem getBlockNumbers_spec_witness :
    ((0 : Int) < 2 ∧ (0 : Int) < 3) ∧
    ((getBlockNumbersForRegionFromBinPosition ⟨0, 5, 0, 5⟩ 2 3 true).Nodup ∧
     ((7 : Int) ∈ getBlockNumbersForRegionFromBinPosition ⟨0, 5, 0, 5⟩ 2 3 true ↔
       ((∃ r c, (0 : Int).tdiv 2 ≤ r ∧ r ≤ ((5 : Int) + 1).tdiv 2 ∧
          (0 : Int).tdiv 2 ≤ c ∧ c ≤ ((5 : Int) + 1).tdiv 2 ∧ r * 3 + c = 7) ∨
        (true = true ∧ ∃ r c, (0 : Int).tdiv 2 ≤ r ∧ r ≤ ((5 : Int) + 1).tdiv 2 ∧
          (0 : Int).tdiv 2 ≤ c ∧ c ≤ ((5 : Int) + 1).tdiv 2 ∧ r * 3 + c = 7)))) :=
  ⟨⟨by decide, by decide⟩, getBlockNumbers_spec ⟨0, 5, 0, 5⟩ 2 3 true 7 (by decide) (by decide)⟩

/-! ### C3 -/

/-- C3: for every decoded raw record, the record loop of `straw` emits
exactly one result record, with genomic coordinates
`x = binX * binsize`, `y = binY * binsize`, if and only if `x` is in
`[orig.r0, orig.r1]` and `y` in `[orig.r2, orig.r3]`, or, for
intrachromosomal queries only, the mirrored condition holds; otherwise
it emits nothing, so every returned coordinate pair lies within the
requested (possibly mirrored) region. -/
theorem straw_emit_iff (norm : String) (binsize : Int) (o : Region4) (intra : Bool)
    (v1 v2 : List Rat) (rec : contactRecord) :
    processRecord norm binsize o intra v1 v2 rec =
      (if (o.r0 ≤ rec.binX * binsize ∧ rec.binX * binsize ≤ o.r1 ∧
            o.r2 ≤ rec.binY * binsize ∧ rec.binY * binsize ≤ o.r3) ∨
          (intra = true ∧ o.r0 ≤ rec.binY * binsize ∧ rec.binY * binsize ≤ o.r1 ∧
            o.r2 ≤ rec.binX * binsize ∧ rec.binX * binsize ≤ o.r3)
       then some ⟨rec.binX * binsize, rec.binY * binsize,
              if norm == "NONE" then rec.counts
              else rec.counts / (normAt v1 rec.binX * normAt v2 rec.binY)⟩
       else none) := by
  have hb : regionCond o intra (rec.binX * binsize) (rec.binY * binsize) = true ↔
      ((o.r0 ≤ rec.binX * binsize ∧ rec.binX * binsize ≤ o.r1 ∧
         o.r2 ≤ rec.binY * binsize ∧ rec.binY * binsize ≤ o.r3) ∨
       (intra = true ∧ o.r0 ≤ rec.binY * binsize ∧ rec.binY * binsize ≤ o.r1 ∧
         o.r2 ≤ rec.binX * binsize ∧ rec.binX * binsize ≤ o.r3)) := by
    simp [regionCond, inRect]
  rw [processRecord]
  by_cases h : (o.r0 ≤ rec.binX * binsize ∧ rec.binX * binsize ≤ o.r1 ∧
      o.r2 ≤ rec.binY * binsize ∧ rec.binY * binsize ≤ o.r3) ∨
      (intra = true ∧ o.r0 ≤ rec.binY * binsize ∧ rec.binY * binsize ≤ o.r1 ∧
        o.r2 ≤ rec.binX * binsize ∧ rec.binX * binsize ≤ o.r3)
  · rw [if_pos (hb.mpr h), if_pos h]
  · rw [if_neg (fun hc => h (hb.mp hc)), if_neg h]

/-! ### C4 -/

/-- C4: for every file whose magic check fails (its first three bytes
are not `H`, `I`, `C`) and every query whose unit is valid (so that the
query reaches the file at all), `straw` returns no records and emits the
diagnostic modelling `FormatError(NotHic)`. -/
theorem badMagic_no_records (norm : String) (f : HicFile)
    (chr1loc chr2loc unit : String) (binsize : Int) (u1 u2 : List Rat)
    (hm : readMagicString f.magic = false) (hu : unit = "BP" ∨ unit = "FRAG") :
    (straw norm f chr1loc chr2loc unit binsize u1 u2).1 = [] ∧
    Diag.notHic ∈ (straw norm f chr1loc chr2loc unit binsize u1 u2).2 := by
  rcases hu with rfl | rfl <;>
    simp [straw, queryPlan, readHeader, hm, mapLookup]

/-- Witness for `badMagic_no_records` on `fileBadMagic`. -/
theorem badMagic_no_records_witness :
    (readMagicString fileBadMagic.magic = false ∧
     ("BP" = "BP" ∨ "BP" = "FRAG")) ∧
    ((straw "NONE" fileBadMagic "a" "a" "BP" 1 [] []).1 = [] ∧
     Diag.notHic ∈ (straw "NONE" fileBadMagic "a" "a" "BP" 1 [] []).2) :=
  ⟨⟨by decide, Or.inl rfl⟩,
   badMagic_no_records "NONE" fileBadMagic "a" "a" "BP" 1 [] [] (by decide) (Or.inl rfl)⟩

/-! ### C5 -/

/-- C5: for every unit string other than `BP` or `FRAG`, `straw` returns
no records and only the `badUnit` diagnostic; the result is the same for
every file, showing the failure happens before any file or network
access. -/
theorem badUnit_no_query (norm : String) (f : HicFile)
    (chr1loc chr2loc unit : String) (binsize : Int) (u1 u2 : List Rat)
    (h1 : unit ≠ "BP") (h2 : unit ≠ "FRAG") :
    straw norm f chr1loc chr2loc unit binsize u1 u2 = ([], [Diag.badUnit]) := by
  have hcond : (!(unit == "BP" || unit == "FRAG")) = true := by
    simp [h1, h2]
  rw [straw, queryPlan, if_pos hcond]

/-- Witness for `badUnit_no_query` at unit `KR`. -/
theorem badUnit_no_query_witness :
    (("KR" : String) ≠ "BP" ∧ ("KR" : String) ≠ "FRAG") ∧
    straw "NONE" fileC1 "a" "a" "KR" 1 [] [] = ([], [Diag.badUnit]) :=
  ⟨⟨by decide, by decide⟩,
   badUnit_no_query "NONE" fileC1 "a" "a" "KR" 1 [] [] (by decide) (by decide)⟩

/-! ### C6 -/

/-- C6 counterexample: a footer whose master index holds two entries
with the key `1_2`, at positions 10 and 20. The claim says the first
match (position 10) is recorded as the matrix offset, but the loop
overwrites on every match, so position 20 is recorded. -/
theorem readFooter_first_match_cex :
    (readFooter dupFooter 1 2 "NONE" "BP" 5).pairPos = some 20 ∧
    ((dupFooter.entries.filter (fun e => e.key == footerKey 1 2)).head?).map
      (fun e => e.position) = some 10 ∧
    some (20 : Int) ≠ some (10 : Int) := by
  refine ⟨by decide, by decide, by decide⟩

/-- C6 (amended): the footer scan looks up the key `"{c1}_{c2}"`; the
recorded matrix offset is the file position of the last entry with that
key (`none` when there is no such entry), and a query against a file
whose footer contains no chromosome-pair entry at all returns no
records. -/
theorem readFooter_matrix_offset :
    (∀ (footer : HicFooter) (c1 c2 : Int) (norm unit : String) (res : Int),
      (readFooter footer c1 c2 norm unit res).pairPos =
        ((footer.entries.filter (fun e => e.key == footerKey c1 c2)).getLast?).map
          (fun e => e.position)) ∧
    (∀ (norm : String) (f : HicFile) (chr1loc chr2loc unit : String) (binsize : Int)
       (u1 u2 : List Rat),
      (∀ e ∈ f.footer.entries, ∀ i j : Int, e.key ≠ footerKey i j) →
      (straw norm f chr1loc chr2loc unit binsize u1 u2).1 = []) := by
  constructor
  · intro footer c1 c2 norm unit res
    rw [readFooter, scanEntries_eq]
    cases hl : (footer.entries.filter fun e => e.key == footerKey c1 c2).getLast? with
    | none => simp [hl]
    | some e =>
      simp only [hl, Option.map_some]
      by_cases hn : (norm == "NONE") = true <;> simp [hn]
  · intro norm f chr1loc chr2loc unit binsize u1 u2 hkeys
    have hpair : ∀ c1 c2 : Int,
        (readFooter f.footer c1 c2 norm unit binsize).pairPos = none :=
      fun c1 c2 => readFooter_pairPos_none (fun e he => hkeys e he c1 c2)
    rw [straw]
    rcases hq : queryPlan norm f chr1loc chr2loc unit binsize with ⟨ds, op⟩
    cases op with
    | none => rfl
    | some p =>
      exfalso
      rw [queryPlan] at hq
      dsimp only at hq
      split at hq
      · simp at hq
      · split at hq
        · simp at hq
        · split at hq
          · simp at hq
          · split at hq
            · simp at hq
            · split at hq
              · simp at hq
              · split at hq
                · simp at hq
                · next hsome =>
                  rw [hpair] at hsome
                  simp at hsome

/-- Witness for `readFooter_matrix_offset`: the first part at the
duplicate footer, the second at a file with an empty footer. -/
theorem readFooter_matrix_offset_witness :
    ((readFooter dupFooter 1 2 "NONE" "BP" 5).pairPos =
      ((dupFooter.entries.filter (fun e => e.key == footerKey 1 2)).getLast?).map
        (fun e => e.position)) ∧
    (straw "NONE" fileNoPair "a" "a" "BP" 1 [] []).1 = [] :=
  ⟨readFooter_matrix_offset.1 dupFooter 1 2 "NONE" "BP" 5,
   readFooter_matrix_offset.2 "NONE" fileNoPair "a" "a" "BP" 1 [] []
     (by intro e he i j; simp [fileNoPair, fileC1] at he)⟩

/-! ### C8 -/

theorem type2Aux_enumFrom (bxOff byOff w : Int) (i : Nat) (cells : List RawCount) :
    type2Aux bxOff byOff w i cells =
      (List.enumFrom i cells).filterMap (fun ic =>
        (readCountCell ic.2).map (fun q =>
          (⟨bxOff + ((ic.1 : Int) - ((ic.1 : Int).tdiv w) * w),
            byOff + (ic.1 : Int).tdiv w, q⟩ : contactRecord))) := by
  induction cells generalizing i with
  | nil => rfl
  | cons cell rest ih =>
    rw [List.enumFrom_cons, List.filterMap_cons, type2Aux]
    cases hc : readCountCell cell with
    | none => simpa [hc] using ih (i + 1)
    | some q => simpa [hc] using ih (i + 1)

theorem type2Aux_length (bxOff byOff w : Int) (i : Nat) (cells : List RawCount) :
    (type2Aux bxOff byOff w i cells).length =
      (cells.filter (fun c => (readCountCell c).isSome)).length := by
  induction cells generalizing i with
  | nil => rfl
  | cons cell rest ih =>
    rw [List.filter_cons, type2Aux]
    cases hc : readCountCell cell with
    | none => simpa [hc] using ih (i + 1)
    | some q => simpa [hc] using ih (i + 1)

theorem fillVector_exact {ws : List contactRecord} {n : Nat} (h : ws.length = n) :
    fillVector n ws = ws := by
  rw [fillVector, List.take_of_length_le (le_of_eq h), h]
  simp

/-- C8 (amended): for every version ≥ 7 type-2 block whose leading
`nRecords` field equals the number of non-skipped cells (the well-formed
case; the counterexample shows skipped cells otherwise leave
zero-initialized padding records in the output), `readBlock` returns
exactly one record per non-skipped cell: a cell whose `int16` count is
the sentinel `-32768` or whose `float32` count is NaN produces nothing,
and every other cell at iteration index `i` produces the record at
`binX = binXOffset + (i mod w)`, `binY = binYOffset + (i div w)`. -/
theorem readBlock_type2_skip (version : Int) (idx : indexEntry) (nRecords : Nat)
    (bxOff byOff us w : Int) (cells : List RawCount)
    (hv : 7 ≤ version) (hsz : idx.size ≠ 0) (hw : 0 < w)
    (hn : nRecords = (cells.filter (fun c => (readCountCell c).isSome)).length) :
    readBlock version idx
        ⟨nRecords, BlockData.modern bxOff byOff us (ModernBody.type2 w cells)⟩ =
      cells.enum.filterMap (fun ic =>
        (readCountCell ic.2).map (fun q =>
          (⟨bxOff + (ic.1 : Int) % w, byOff + (ic.1 : Int) / w, q⟩ : contactRecord))) := by
  rw [readBlock, if_neg hsz]
  show fillVector nRecords (decodedRecords version
    (BlockData.modern bxOff byOff us (ModernBody.type2 w cells))) = _
  have hd : decodedRecords version
      (BlockData.modern bxOff byOff us (ModernBody.type2 w cells)) =
      type2Records bxOff byOff w cells := by
    rw [decodedRecords, if_neg (by omega)]
  rw [hd, fillVector_exact (by rw [type2Records, type2Aux_length]; omega),
    type2Records, type2Aux_enumFrom]
  show (cells.enum).filterMap _ = _
  apply List.filterMap_congr
  intro ic _
  dsimp only
  cases hrc : readCountCell ic.2 with
  | none => simp [hrc]
  | some q =>
    simp only [Option.map_some']
    have htd : ((ic.1 : Int)).tdiv w = (ic.1 : Int) / w :=
      Int.tdiv_eq_ediv (Int.natCast_nonneg _) (le_of_lt hw)
    have hcol : (ic.1 : Int) - ((ic.1 : Int)).tdiv w * w = (ic.1 : Int) % w := by
      rw [htd, Int.emod_def]
      ring
    rw [hcol, htd]

/-- Witness for `readBlock_type2_skip` on a two-cell type-2 block whose
second cell is the sentinel. -/
theorem readBlock_type2_skip_witness :
    ((7 : Int) ≤ 7 ∧ (⟨1, 20⟩ : indexEntry).size ≠ 0 ∧ (0 : Int) < 1 ∧
     1 = (([RawCount.shortC 3, RawCount.shortC (-32768)].filter
            (fun c => (readCountCell c).isSome)).length)) ∧
    readBlock 7 ⟨1, 20⟩
        ⟨1, BlockData.modern 0 0 0
          (ModernBody.type2 1 [RawCount.shortC 3, RawCount.shortC (-32768)])⟩ =
      ([RawCount.shortC 3, RawCount.shortC (-32768)].enum).filterMap (fun ic =>
        (readCountCell ic.2).map (fun q =>
          (⟨0 + (ic.1 : Int) % 1, 0 + (ic.1 : Int) / 1, q⟩ : contactRecord))) :=
  ⟨⟨by decide, by decide, by decide, by decide⟩,
   readBlock_type2_skip 7 ⟨1, 20⟩ 1 0 0 0 1
     [RawCount.shortC 3, RawCount.shortC (-32768)]
     (by decide) (by decide) (by decide) (by decide)⟩

/-- C8 counterexample: in `file8` the single type-2 cell reads as the
sentinel `-32768`, yet the query's output is not empty: the skipped cell
leaves a zero-initialized slot in the `nRecords`-sized result vector and
the query emits it as the record `(0, 0, 0)`, so the claim that a
sentinel cell produces no contact record in the query's output is
false. -/
theorem type2_sentinel_output_cex :
    (straw "NONE" file8 "a" "a" "BP" 1 [] []).1 = [⟨0, 0, 0⟩] ∧
    (straw "NONE" file8 "a" "a" "BP" 1 [] []).1 ≠ [] :=
  ⟨by decide, by decide⟩

/-! ### C7 -/

/-- C7 (code bug): on a file whose normalization index has a `VC` entry
for chromosome 0 but none for chromosome 1, `readFooter` succeeds with
only a warning and leaves the second entry absent, and `straw` then
divides every count by both vectors, the absent side being whatever the
uninitialized read produces (undefined behaviour in the source, the
`uninit2` parameter here): the emitted count depends on that
uninitialized value instead of treating the missing side as identity. -/
theorem missing_norm_vector_cex :
    (readFooter file7.footer 0 1 "VC" "BP" 1).pairPos = some 50 ∧
    (readFooter file7.footer 0 1 "VC" "BP" 1).c1NormEntry = some ⟨8, 60⟩ ∧
    (readFooter file7.footer 0 1 "VC" "BP" 1).c2NormEntry = none ∧
    (readFooter file7.footer 0 1 "VC" "BP" 1).warnings = [Diag.missingNorm] ∧
    (straw "VC" file7 "a" "b" "BP" 1 [1] [1]).1 = [⟨0, 0, 4 / (1 * 1)⟩] ∧
    (straw "VC" file7 "a" "b" "BP" 1 [1] [2]).1 = [⟨0, 0, 4 / (1 * 2)⟩] ∧
    (4 : Rat) / (1 * 1) ≠ 4 / (1 * 2) :=
  ⟨by decide, by decide, by decide, by decide, rfl, rfl, by norm_num⟩

/-! ### C9 -/

theorem regionCond_swapQuad (o : Region4) (x y : Int) :
    regionCond o.swapQuad true x y = regionCond o true x y := by
  have h1 : inRect o.swapQuad x y = inRect o y x :=
    decide_eq_decide.mpr (by constructor <;> (rintro ⟨a, b, c, d⟩; exact ⟨c, d, a, b⟩))
  have h2 : inRect o.swapQuad y x = inRect o x y :=
    decide_eq_decide.mpr (by constructor <;> (rintro ⟨a, b, c, d⟩; exact ⟨c, d, a, b⟩))
  rw [regionCond, regionCond, h1, h2, Bool.true_and, Bool.true_and, Bool.or_comm]

theorem processRecord_swapQuad (norm : String) (binsize : Int) (o : Region4)
    (v1 v2 : List Rat) :
    processRecord norm binsize o.swapQuad true v1 v2 =
      processRecord norm binsize o true v1 v2 := by
  funext rec
  rw [processRecord, processRecord, regionCond_swapQuad]

theorem blockSelector_swapQuad (ri : Region4) (bbc bcc : Int) (b : Int) :
    b ∈ getBlockNumbersForRegionFromBinPosition ri.swapQuad bbc bcc true ↔
      b ∈ getBlockNumbersForRegionFromBinPosition ri bbc bcc true := by
  rw [mem_blockSelector, mem_blockSelector]
  simp only [Region4.swapQuad, true_and]
  exact or_comm

theorem regionDiv_swapQuad (o : Region4) (b : Int) :
    regionDiv o.swapQuad b = (regionDiv o b).swapQuad := rfl

theorem perm_flatMap {α β : Type} {l1 l2 : List α} (f : α → List β)
    (h : l1.Perm l2) : (l1.flatMap f).Perm (l2.flatMap f) := by
  rw [List.flatMap_def, List.flatMap_def]
  exact (h.map f).flatten

theorem queryPlan_swap (norm : String) (f : HicFile) (locA locB unit : String) (bs : Int) :
    ((queryPlan norm f locA locB unit bs).2 = none ∧
     (queryPlan norm f locB locA unit bs).2 = none) ∨
    (∃ pA pB, (queryPlan norm f locA locB unit bs).2 = some pA ∧
      (queryPlan norm f locB locA unit bs).2 = some pB ∧
      pB.version = pA.version ∧ pB.intra = pA.intra ∧ pB.zoom = pA.zoom ∧
      pB.c1NormEntry = pA.c1NormEntry ∧ pB.c2NormEntry = pA.c2NormEntry ∧
      (pB.orig = pA.orig ∨ (pA.intra = true ∧ pB.orig = pA.orig.swapQuad))) := by
  rw [queryPlan, queryPlan]
  by_cases hu : (!(unit == "BP" || unit == "FRAG")) = true
  · simp only [if_pos hu]
    exact Or.inl ⟨by trivial, by trivial⟩
  · simp only [if_neg hu]
    cases h1 : mapLookup (readHeader f).chromosomeMap (parseChrLoc locA).1 with
    | none =>
      simp only [h1]
      cases h2 : mapLookup (readHeader f).chromosomeMap (parseChrLoc locB).1 with
      | none => simp only [h2]; exact Or.inl ⟨by trivial, by trivial⟩
      | some chrom2 =>
        simp only [h2]
        cases h3 : resolveRange chrom2.length (parseChrLoc locB).2 with
        | none => simp only [h3]; exact Or.inl ⟨by trivial, by trivial⟩
        | some pos2 => simp only [h3, h1]; exact Or.inl ⟨by trivial, by trivial⟩
    | some chrom1 =>
      simp only [h1]
      cases h2 : resolveRange chrom1.length (parseChrLoc locA).2 with
      | none =>
        simp only [h2]
        cases h3 : mapLookup (readHeader f).chromosomeMap (parseChrLoc locB).1 with
        | none => simp only [h3]; exact Or.inl ⟨by trivial, by trivial⟩
        | some chrom2 =>
          simp only [h3]
          cases h4 : resolveRange chrom2.length (parseChrLoc locB).2 with
          | none => simp only [h4]; exact Or.inl ⟨by trivial, by trivial⟩
          | some pos2 => simp only [h4, h1, h2]; exact Or.inl ⟨by trivial, by trivial⟩
      | some pos1 =>
        simp only [h2]
        cases h3 : mapLookup (readHeader f).chromosomeMap (parseChrLoc locB).1 with
        | none => simp only [h3]; exact Or.inl ⟨by trivial, by trivial⟩
        | some chrom2 =>
          simp only [h3]
          cases h4 : resolveRange chrom2.length (parseChrLoc locB).2 with
          | none => simp only [h4]; exact Or.inl ⟨by trivial, by trivial⟩
          | some pos2 =>
            simp only [h4, h1, h2]
            rw [min_comm chrom2.index chrom1.index, max_comm chrom2.index chrom1.index]
            cases h5 : (readFooter f.footer (chrom1.index ⊓ chrom2.index)
                (chrom1.index ⊔ chrom2.index) norm unit bs).pairPos with
            | none => simp only [h5]; exact Or.inl ⟨by trivial, by trivial⟩
            | some myFilePos =>
              simp only [h5]
              cases h6 : readMatrix (f.matrixAt myFilePos) unit bs with
              | none => simp only [h6]; exact Or.inl ⟨by trivial, by trivial⟩
              | some z =>
                simp only [h6]
                refine Or.inr ⟨_, _, rfl, rfl, rfl, rfl, rfl, rfl, rfl, ?_⟩
                rcases lt_trichotomy chrom1.index chrom2.index with hlt | heq | hgt
                · left
                  dsimp only
                  rw [if_pos hlt, if_neg (by omega)]
                · right
                  constructor
                  · dsimp only
                    rw [heq]
                    simp
                  · dsimp only
                    rw [if_neg (by omega), if_neg (by omega)]
                    rfl
                · left
                  dsimp only
                  rw [if_neg (by omega), if_pos hgt]

/-- C9 (amended): for every file and all parameters, calling `straw`
with `chr1loc` and `chr2loc` exchanged yields the same records (the same
multiset; the source returns them in the identical order since blocks
are visited in `std::set` order): the reader canonicalizes the
chromosome pair to `(min, max)` and swaps the two region rectangles, so
`binX` always refers to the lower-indexed chromosome and no `binX`/`binY`
exchange happens. -/
theorem straw_swap_same (norm : String) (f : HicFile) (locA locB unit : String)
    (binsize : Int) (u1 u2 : List Rat) :
    ((straw norm f locA locB unit binsize u1 u2).1).Perm
      ((straw norm f locB locA unit binsize u1 u2).1) := by
  rw [straw, straw]
  rcases hqA : queryPlan norm f locA locB unit binsize with ⟨dsA, opA⟩
  rcases hqB : queryPlan norm f locB locA unit binsize with ⟨dsB, opB⟩
  rcases queryPlan_swap norm f locA locB unit binsize with ⟨hA, hB⟩ |
      ⟨pA, pB, hA, hB, hv, hi, hz, h1, h2, hor⟩ <;>
    rw [hqA] at hA <;> rw [hqB] at hB <;> dsimp only at hA hB <;> subst hA <;> subst hB
  · exact List.Perm.refl _
  · dsimp only
    simp only [hv, hi, hz, h1, h2]
    rcases hor with horEq | ⟨hintra, horSwap⟩
    · rw [horEq]
    · simp only [horSwap, hintra, regionDiv_swapQuad, processRecord_swapQuad]
      apply perm_flatMap
      exact ((List.perm_ext_iff_of_nodup (blockSelector_nodup _ _ _ _)
        (blockSelector_nodup _ _ _ _)).mpr
        (fun b => blockSelector_swapQuad _ _ _ b)).symm

/-- C9 counterexample: on `file9` (one interchromosomal record at bin
`(1, 2)`), the swapped call returns exactly the same record `(1, 2, 5)`,
not its transpose `(2, 1, 5)`: the claim that the swapped call's records
are the transposes of the original call's records is false. -/
theorem straw_swap_not_transpose_cex :
    (straw "NONE" file9 "b" "a" "BP" 1 [] []).1 =
      (straw "NONE" file9 "a" "b" "BP" 1 [] []).1 ∧
    (straw "NONE" file9 "b" "a" "BP" 1 [] []).1 ≠
      transposeRecords (straw "NONE" file9 "a" "b" "BP" 1 [] []).1 :=
  ⟨by decide, by decide⟩
